import Mathlib

/-!
Verification of the plaque-text parser of the STAT-5350 translator.

The definitions below are a shallow embedding of
`src/STAT-5350-Translator/parser.py` (function `parse_text`) and of the
parse/abort stage of `main` in `src/STAT-5350-Translator/art-translator.py`.
Python strings are modelled as Lean `String`, the mutable `information`
dictionary as the record `PlaqueFields`, and the line loop as a `List.foldl`
over the list of stripped lines.
-/

namespace PlaqueParser

/-- The `information` dictionary built by `parse_text` (keys in insertion
order: author, life_info, title, year, medium, source, description,
parse_success, raw_text). -/
structure PlaqueFields where
  author : String
  life_info : String
  title : String
  year : String
  medium : String
  source : String
  description : String
  parse_success : Bool
  raw_text : String
deriving DecidableEq, Repr

/-- Python whitespace for `str.strip()` restricted to the ASCII range:
space, tab, newline, carriage return, vertical tab, form feed. -/
def pyIsSpace (c : Char) : Bool :=
  c = ' ' || c = '\t' || c = '\n' || c = '\r' || c = '\x0b' || c = '\x0c'

/-- Strip `pyIsSpace` characters from both ends of a character list. -/
def stripChars (l : List Char) : List Char :=
  ((l.dropWhile pyIsSpace).reverse.dropWhile pyIsSpace).reverse

/-- Model of Python `s.strip()`. -/
def pyStrip (s : String) : String :=
  ⟨stripChars s.data⟩

/-- Split a character list at every occurrence of the separator, keeping
empty segments: model of Python `str.split(sep)` at the character level. -/
def splitList (sep : Char) : List Char → List (List Char)
  | [] => [[]]
  | c :: cs =>
    if c = sep then [] :: splitList sep cs
    else
      match splitList sep cs with
      | [] => [[c]]
      | seg :: segs => (c :: seg) :: segs

/-- Model of Python `raw_text.split('\n')`. -/
def pySplitNewline (s : String) : List String :=
  (splitList '\n' s.data).map fun l => ⟨l⟩

/-- Model of `[line.strip() for line in raw_text.split('\n')]`
(parser.py line 64). -/
def strippedLines (raw_text : String) : List String :=
  (pySplitNewline raw_text).map pyStrip

/-- Loop body of the `for i in range(len(lines))` loop of `parse_text`
(parser.py lines 68-95).  The state is the `information` record paired with
the `last_line_blank` flag. -/
def processLine : PlaqueFields × Bool → String → PlaqueFields × Bool
  | (info, last_line_blank), line =>
    if line ≠ "" then
      if info.author = "" then
        ({ info with author := line }, false)
      else if info.life_info = "" ∧ last_line_blank = false then
        ({ info with life_info := line }, false)
      else if info.title = "" ∧ last_line_blank = true then
        ({ info with title := line }, false)
      else if info.year = "" ∧ last_line_blank = false then
        ({ info with year := line }, false)
      else if info.medium = "" ∧ last_line_blank = true then
        ({ info with medium := line }, false)
      else if info.source = "" ∧ last_line_blank = true then
        ({ info with source := line }, false)
      else if info.description = "" ∧ last_line_blank = true then
        ({ info with description := line }, false)
      else if info.description ≠ "" ∧ last_line_blank = false then
        ({ info with description := info.description ++ "\n" ++ line }, false)
      else
        (info, last_line_blank)
    else
      (info, true)

/-- The `information` dictionary as initialized at the top of `parse_text`
(parser.py lines 46-56). -/
def initFields (raw_text : String) : PlaqueFields :=
  { author := "", life_info := "", title := "", year := "", medium := ""
    source := "", description := "", parse_success := false
    raw_text := raw_text }

/-- Model of `all(value != '' for value in information.values())`
(parser.py line 97).
The values are iterated in insertion order; the `parse_success` entry holds
the Python bool `False` at that point, and in Python `False != ''` is `True`,
so that conjunct is the constant `true` here. -/
def allValuesNonEmpty (info : PlaqueFields) : Bool :=
  (info.author != "") && (info.life_info != "") && (info.title != "") &&
  (info.year != "") && (info.medium != "") && (info.source != "") &&
  (info.description != "") && true && (info.raw_text != "")

/-- Shallow embedding of `parse_text` (parser.py lines 44-101).  The `debug`
flag only controls `print` calls in the source and never the returned value. -/
def parse_text (raw_text : String) (debug : Bool) : PlaqueFields :=
  let information := initFields raw_text
  if pyStrip raw_text = "" then information
  else
    let lines := strippedLines raw_text
    let result := lines.foldl processLine (information, true)
    let info := result.1
    if allValuesNonEmpty info then { info with parse_success := true }
    else info

/-- Parser state after the first `n` stripped lines of `raw_text` have been
fed through the loop (used to talk about intermediate moments of one run). -/
def stateAfter (raw_text : String) (n : Nat) : PlaqueFields × Bool :=
  ((strippedLines raw_text).take n).foldl processLine (initFields raw_text, true)

/-- Disjunction of the eight guards of the classification chain: `true` iff
some rule fires on a non-blank line in state `(info, last_line_blank)`.
(The guards test only the fields and the flag, never the line itself.) -/
def ruleFires (info : PlaqueFields) (last_line_blank : Bool) : Bool :=
  (info.author == "") ||
  (info.life_info == "" && last_line_blank == false) ||
  (info.title == "" && last_line_blank == true) ||
  (info.year == "" && last_line_blank == false) ||
  (info.medium == "" && last_line_blank == true) ||
  (info.source == "" && last_line_blank == true) ||
  (info.description == "" && last_line_blank == true) ||
  (info.description != "" && last_line_blank == false)

/-- A concrete state with every string field filled (test vector). -/
def fullRecordState : PlaqueFields × Bool :=
  ({ author := "a", life_info := "b", title := "c", year := "d",
     medium := "e", source := "f", description := "g", parse_success := false,
     raw_text := "r" }, true)

/-- A concrete state with `life_info` and `year` still empty, all other
string fields filled, flag `true` (test vector). -/
def gapRecordState : PlaqueFields × Bool :=
  ({ author := "a", life_info := "", title := "c", year := "",
     medium := "e", source := "f", description := "g", parse_success := false,
     raw_text := "r" }, true)

/-- A concrete state ready for a description continuation: `description`,
`author`, `life_info`, `year` filled, flag `false` (test vector). -/
def contRecordState : PlaqueFields × Bool :=
  ({ author := "a", life_info := "b", title := "", year := "d",
     medium := "", source := "", description := "g", parse_success := false,
     raw_text := "r" }, false)

/-- Input whose line 11 is dropped while `life_info` and `year` are still
empty (test vector for the dropped-line analysis). -/
def c1input : String := "A\n\nT\n\nM\n\nS\n\nD\n\nX"

/-- Input whose line 10 follows the first description line with no blank in
between while `life_info` is still empty (test vector). -/
def c7input : String := "A\n\nT\n\nM\n\nS\n\nD\nX"

/-- Canonical full layout with a year line directly under the title
(test vector for the full-field-set layout). -/
def c6input : String :=
  "Jane Doe\n1900-1980\n\nSunset\n1923\n\nOil on canvas\n\nGift of X\n\nA painting of a sunset over water."

/-- The parse/abort stage of `main` (art-translator.py lines 341-359):
the partial record attached to the raised `ValueError` (if any), and the
string fields handed to `translate_text`, in call order. -/
structure DriverParseOutcome where
  abortError : Option PlaqueFields
  translationInputs : List String
deriving DecidableEq, Repr

/-- Shallow embedding of `main` from the `clean_text` call up to the
`translate_text` call (art-translator.py lines 341-359; `clean_text` is a
direct wrapper around `parse_text`).  On `parse_success != True` the driver
raises `ValueError` whose message interpolates the whole `information`
record, before any translation happens; otherwise the five translatable
fields are passed on to `translate_text`. -/
def mainParseStage (extracted_text : String) (debug : Bool) : DriverParseOutcome :=
  let information := parse_text extracted_text debug
  if information.parse_success ≠ true then
    { abortError := some information, translationInputs := [] }
  else
    { abortError := none
      translationInputs := [information.life_info, information.title,
        information.medium, information.source, information.description] }

/-! ### Helper lemmas -/

theorem processLine_raw_text (st : PlaqueFields × Bool) (line : String) :
    (processLine st line).1.raw_text = st.1.raw_text := by
  obtain ⟨info, b⟩ := st
  simp only [processLine]
  repeat' split
  all_goals rfl

theorem processLine_parse_success (st : PlaqueFields × Bool) (line : String) :
    (processLine st line).1.parse_success = st.1.parse_success := by
  obtain ⟨info, b⟩ := st
  simp only [processLine]
  repeat' split
  all_goals rfl

/-- A field-valued observation that every single step preserves is preserved
by the whole loop. -/
theorem foldl_pres_const {α : Type} (f : PlaqueFields → α)
    (hstep : ∀ st line, f (processLine st line).1 = f st.1)
    (lines : List String) (st : PlaqueFields × Bool) :
    f (lines.foldl processLine st).1 = f st.1 := by
  induction lines generalizing st with
  | nil => rfl
  | cons l ls ih => rw [List.foldl_cons, ih, hstep]

/-- A string field that every step leaves alone once non-empty is left alone
by the whole loop once non-empty. -/
theorem foldl_pres_nonempty (f : PlaqueFields → String)
    (hstep : ∀ st line, f st.1 ≠ "" → f (processLine st line).1 = f st.1)
    (lines : List String) (st : PlaqueFields × Bool) (h : f st.1 ≠ "") :
    f (lines.foldl processLine st).1 = f st.1 := by
  induction lines generalizing st with
  | nil => rfl
  | cons l ls ih =>
    rw [List.foldl_cons]
    have hl := hstep st l h
    rw [ih (processLine st l) (by rw [hl]; exact h), hl]

theorem processLine_author_pres (st : PlaqueFields × Bool) (line : String)
    (h : st.1.author ≠ "") : (processLine st line).1.author = st.1.author := by
  obtain ⟨info, b⟩ := st
  simp only [processLine]
  repeat' split
  all_goals simp_all

theorem processLine_life_info_pres (st : PlaqueFields × Bool) (line : String)
    (h : st.1.life_info ≠ "") : (processLine st line).1.life_info = st.1.life_info := by
  obtain ⟨info, b⟩ := st
  simp only [processLine]
  repeat' split
  all_goals simp_all

theorem processLine_title_pres (st : PlaqueFields × Bool) (line : String)
    (h : st.1.title ≠ "") : (processLine st line).1.title = st.1.title := by
  obtain ⟨info, b⟩ := st
  simp only [processLine]
  repeat' split
  all_goals simp_all

theorem processLine_year_pres (st : PlaqueFields × Bool) (line : String)
    (h : st.1.year ≠ "") : (processLine st line).1.year = st.1.year := by
  obtain ⟨info, b⟩ := st
  simp only [processLine]
  repeat' split
  all_goals simp_all

theorem processLine_medium_pres (st : PlaqueFields × Bool) (line : String)
    (h : st.1.medium ≠ "") : (processLine st line).1.medium = st.1.medium := by
  obtain ⟨info, b⟩ := st
  simp only [processLine]
  repeat' split
  all_goals simp_all

theorem processLine_source_pres (st : PlaqueFields × Bool) (line : String)
    (h : st.1.source ≠ "") : (processLine st line).1.source = st.1.source := by
  obtain ⟨info, b⟩ := st
  simp only [processLine]
  repeat' split
  all_goals simp_all

/-- Each step only ever extends `description` on the right (the assign branch
requires it to be empty, the append branch concatenates). -/
theorem processLine_description_extend (st : PlaqueFields × Bool) (line : String) :
    ∃ t, (processLine st line).1.description = st.1.description ++ t := by
  obtain ⟨info, b⟩ := st
  simp only [processLine]
  repeat' split
  all_goals first
    | exact ⟨"", (String.append_empty _).symm⟩
    | (rename_i h; exact ⟨line, by rw [h.1, String.empty_append]⟩)
    | exact ⟨"\n" ++ line, String.append_assoc _ _ _⟩

theorem foldl_description_extend (lines : List String) (st : PlaqueFields × Bool) :
    ∃ t, (lines.foldl processLine st).1.description = st.1.description ++ t := by
  induction lines generalizing st with
  | nil => exact ⟨"", (String.append_empty _).symm⟩
  | cons l ls ih =>
    rw [List.foldl_cons]
    obtain ⟨t₁, h₁⟩ := processLine_description_extend st l
    obtain ⟨t₂, h₂⟩ := ih (processLine st l)
    exact ⟨t₁ ++ t₂, by rw [h₂, h₁, String.append_assoc]⟩

/-- When a non-blank line fires none of the eight guards, the loop body
leaves the whole state — record and `last_line_blank` flag — untouched. -/
theorem processLine_dropped (st : PlaqueFields × Bool) (line : String)
    (hline : line ≠ "") (hdrop : ruleFires st.1 st.2 = false) :
    processLine st line = st := by
  obtain ⟨info, b⟩ := st
  simp only [ruleFires, Bool.or_eq_false_iff, Bool.and_eq_false_iff,
    beq_eq_false_iff_ne, bne_eq_false_iff_eq, ne_eq] at hdrop
  obtain ⟨⟨⟨⟨⟨⟨⟨g1, g2⟩, g3⟩, g4⟩, g5⟩, g6⟩, g7⟩, g8⟩ := hdrop
  simp only [processLine, if_pos hline]
  rw [if_neg g1]
  rw [if_neg (by rintro ⟨h1, h2⟩; rcases g2 with h | h <;> simp_all)]
  rw [if_neg (by rintro ⟨h1, h2⟩; rcases g3 with h | h <;> simp_all)]
  rw [if_neg (by rintro ⟨h1, h2⟩; rcases g4 with h | h <;> simp_all)]
  rw [if_neg (by rintro ⟨h1, h2⟩; rcases g5 with h | h <;> simp_all)]
  rw [if_neg (by rintro ⟨h1, h2⟩; rcases g6 with h | h <;> simp_all)]
  rw [if_neg (by rintro ⟨h1, h2⟩; rcases g7 with h | h <;> simp_all)]
  rw [if_neg (by rintro ⟨h1, h2⟩; rcases g8 with h | h <;> simp_all)]

theorem foldl_raw_text (lines : List String) (st : PlaqueFields × Bool) :
    (lines.foldl processLine st).1.raw_text = st.1.raw_text :=
  foldl_pres_const PlaqueFields.raw_text processLine_raw_text lines st

theorem foldl_parse_success (lines : List String) (st : PlaqueFields × Bool) :
    (lines.foldl processLine st).1.parse_success = st.1.parse_success :=
  foldl_pres_const PlaqueFields.parse_success processLine_parse_success lines st

theorem stripChars_eq_nil_iff (l : List Char) :
    stripChars l = [] ↔ ∀ c ∈ l, pyIsSpace c := by
  unfold stripChars
  rw [List.reverse_eq_nil_iff, List.dropWhile_eq_nil_iff]
  constructor
  · intro h c hc
    have hsplit := List.takeWhile_append_dropWhile (p := pyIsSpace) (l := l)
    rw [← hsplit] at hc
    rcases List.mem_append.mp hc with h1 | h1
    · exact List.mem_takeWhile_imp h1
    · exact h _ (List.mem_reverse.mpr h1)
  · intro h c hc
    exact h _ ((List.dropWhile_sublist pyIsSpace).subset (List.mem_reverse.mp hc))

theorem pyStrip_eq_empty_iff (s : String) :
    pyStrip s = "" ↔ ∀ c ∈ s.data, pyIsSpace c := by
  rw [← stripChars_eq_nil_iff]
  constructor
  · intro h
    exact congrArg String.data h
  · intro h
    unfold pyStrip
    rw [h]

theorem mem_of_mem_splitList {sep : Char} {l seg : List Char}
    (hseg : seg ∈ splitList sep l) {c : Char} (hc : c ∈ seg) : c ∈ l := by
  induction l generalizing seg with
  | nil =>
    simp only [splitList, List.mem_singleton] at hseg
    subst hseg
    simp at hc
  | cons x xs ih =>
    simp only [splitList] at hseg
    split at hseg
    · rcases List.mem_cons.mp hseg with rfl | h
      · simp at hc
      · exact List.mem_cons_of_mem _ (ih h hc)
    · rename_i hx
      split at hseg
      · rename_i heq
        rw [List.mem_singleton] at hseg
        subst hseg
        rw [List.mem_singleton] at hc
        subst hc
        exact List.mem_cons_self _ _
      · rename_i seg₀ segs₀ heq
        rcases List.mem_cons.mp hseg with rfl | h
        · rcases List.mem_cons.mp hc with rfl | h
          · exact List.mem_cons_self _ _
          · exact List.mem_cons_of_mem _
              (ih (heq ▸ List.mem_cons_self seg₀ segs₀) h)
        · exact List.mem_cons_of_mem _
            (ih (heq ▸ List.mem_cons_of_mem seg₀ h) hc)

/-- If the whole input strips to the empty string, every stripped line is
empty too: line characters come from the input and are all whitespace. -/
theorem strippedLines_all_empty {raw : String} (h : pyStrip raw = "") :
    ∀ x ∈ strippedLines raw, x = "" := by
  intro x hx
  rw [pyStrip_eq_empty_iff] at h
  simp only [strippedLines, pySplitNewline, List.map_map, List.mem_map,
    Function.comp] at hx
  obtain ⟨seg, hseg, rfl⟩ := hx
  rw [pyStrip_eq_empty_iff]
  intro c hc
  exact h c (mem_of_mem_splitList hseg hc)

theorem ne_empty_of_pyStrip_ne_empty {raw : String} (h : pyStrip raw ≠ "") :
    raw ≠ "" := by
  intro hr
  subst hr
  exact h rfl

/-! ### Claim theorems -/

/-- C8: for every input string (and either debug mode), the `raw_text` field
of the record returned by `parse_text` is the original input verbatim, also
on total parse failure: it is set at initialization and never modified. -/
theorem C8_raw_text_verbatim (raw_text : String) (debug : Bool) :
    (parse_text raw_text debug).raw_text = raw_text := by
  simp only [parse_text]
  split
  · rfl
  · split
    · exact foldl_raw_text _ _
    · exact foldl_raw_text _ _

/-- C4: on input that is empty after stripping leading/trailing whitespace,
`parse_text` returns immediately: all seven string fields empty,
`parse_success = false`, and `raw_text` the original (possibly
whitespace-only) input.  The early-return branch is taken before
`strippedLines` is ever consulted. -/
theorem C4_empty_input (raw_text : String) (debug : Bool)
    (h : pyStrip raw_text = "") :
    parse_text raw_text debug =
      { author := "", life_info := "", title := "", year := "", medium := ""
        source := "", description := "", parse_success := false
        raw_text := raw_text } := by
  simp only [parse_text]
  rw [if_pos h]
  rfl

/-- Witness for C4 at the whitespace-only input `"   \n\n"`. -/
theorem C4_empty_input_witness :
    pyStrip "   \n\n" = "" ∧
      parse_text "   \n\n" false =
        { author := "", life_info := "", title := "", year := "", medium := ""
          source := "", description := "", parse_success := false
          raw_text := "   \n\n" } :=
  ⟨by decide, C4_empty_input "   \n\n" false (by decide)⟩

/-- C2: for every input, `parse_success` of the returned record is `true`
iff all seven string fields of the returned record are non-empty.  The
Python check iterates over all dictionary values, but the `parse_success`
entry (`False != ''` is always `True`) and the `raw_text` entry (non-empty
whenever the stripped input is non-empty) never change the outcome. -/
theorem C2_parse_success_iff (raw_text : String) (debug : Bool) :
    (parse_text raw_text debug).parse_success = true ↔
      ((parse_text raw_text debug).author ≠ "" ∧
       (parse_text raw_text debug).life_info ≠ "" ∧
       (parse_text raw_text debug).title ≠ "" ∧
       (parse_text raw_text debug).year ≠ "" ∧
       (parse_text raw_text debug).medium ≠ "" ∧
       (parse_text raw_text debug).source ≠ "" ∧
       (parse_text raw_text debug).description ≠ "") := by
  simp only [parse_text]
  split
  · rename_i h
    simp [initFields]
  · rename_i hne
    split
    · rename_i hall
      simp only [allValuesNonEmpty, Bool.and_eq_true, bne_iff_ne, ne_eq] at hall
      obtain ⟨⟨⟨⟨⟨⟨⟨⟨h1, h2⟩, h3⟩, h4⟩, h5⟩, h6⟩, h7⟩, -⟩, -⟩ := hall
      simp only [true_iff]
      exact ⟨h1, h2, h3, h4, h5, h6, h7⟩
    · rename_i hall
      rw [foldl_parse_success]
      simp only [initFields, Bool.false_eq_true, false_iff]
      intro ⟨h1, h2, h3, h4, h5, h6, h7⟩
      apply hall
      have hraw : ((strippedLines raw_text).foldl processLine
          (initFields raw_text, true)).1.raw_text = raw_text := foldl_raw_text _ _
      simp only [allValuesNonEmpty, Bool.and_eq_true, bne_iff_ne, ne_eq, hraw]
      exact ⟨⟨⟨⟨⟨⟨⟨⟨h1, h2⟩, h3⟩, h4⟩, h5⟩, h6⟩, h7⟩, trivial⟩,
        ne_empty_of_pyStrip_ne_empty hne⟩

theorem take_decomp {α : Type} (l : List α) {i j : Nat} (hij : i ≤ j) :
    l.take j = l.take i ++ (l.take j).drop i := by
  conv_lhs => rw [← List.take_append_drop i (l.take j)]
  rw [List.take_take, Nat.min_eq_left hij]

/-- The state after `j` lines is the state after `i ≤ j` lines fed with the
lines in between: intermediate moments of one run decompose the loop. -/
theorem stateAfter_decomp (raw_text : String) {i j : Nat} (hij : i ≤ j) :
    stateAfter raw_text j =
      (((strippedLines raw_text).take j).drop i).foldl processLine
        (stateAfter raw_text i) := by
  unfold stateAfter
  conv_lhs => rw [take_decomp (strippedLines raw_text) hij]
  rw [List.foldl_append]

/-- C3: within one run of `parse_text`, between any two moments `i ≤ j` of
the line loop, each of the six single-assignment fields is never overwritten
once non-empty (so it is assigned at most once, by a line that finds it
empty), and `description` only ever grows on the right: its earlier content
stays as a prefix. -/
theorem C3_fields_monotone (raw_text : String) (i j : Nat) (hij : i ≤ j) :
    ((stateAfter raw_text i).1.author ≠ "" →
      (stateAfter raw_text j).1.author = (stateAfter raw_text i).1.author) ∧
    ((stateAfter raw_text i).1.life_info ≠ "" →
      (stateAfter raw_text j).1.life_info = (stateAfter raw_text i).1.life_info) ∧
    ((stateAfter raw_text i).1.title ≠ "" →
      (stateAfter raw_text j).1.title = (stateAfter raw_text i).1.title) ∧
    ((stateAfter raw_text i).1.year ≠ "" →
      (stateAfter raw_text j).1.year = (stateAfter raw_text i).1.year) ∧
    ((stateAfter raw_text i).1.medium ≠ "" →
      (stateAfter raw_text j).1.medium = (stateAfter raw_text i).1.medium) ∧
    ((stateAfter raw_text i).1.source ≠ "" →
      (stateAfter raw_text j).1.source = (stateAfter raw_text i).1.source) ∧
    (∃ t, (stateAfter raw_text j).1.description =
      (stateAfter raw_text i).1.description ++ t) := by
  rw [stateAfter_decomp raw_text hij]
  exact ⟨fun h => foldl_pres_nonempty PlaqueFields.author processLine_author_pres _ _ h,
    fun h => foldl_pres_nonempty PlaqueFields.life_info processLine_life_info_pres _ _ h,
    fun h => foldl_pres_nonempty PlaqueFields.title processLine_title_pres _ _ h,
    fun h => foldl_pres_nonempty PlaqueFields.year processLine_year_pres _ _ h,
    fun h => foldl_pres_nonempty PlaqueFields.medium processLine_medium_pres _ _ h,
    fun h => foldl_pres_nonempty PlaqueFields.source processLine_source_pres _ _ h,
    foldl_description_extend _ _⟩

/-- Witness for C3: on `"A\nB\n\nC"`, the author captured by line 1 is
still in place after line 4. -/
theorem C3_fields_monotone_witness :
    (stateAfter "A\nB\n\nC" 4).1.author = (stateAfter "A\nB\n\nC" 2).1.author :=
  (C3_fields_monotone "A\nB\n\nC" 2 4 (by decide)).1 (by decide)

/-- C5: when all seven string fields are already non-empty and a non-blank
line arrives with the previous-line-blank flag set, no guard of the
classification chain fires, so the step returns the state unchanged — no
field is altered and (the loop body being total) no error is raised. -/
theorem C5_full_record_drop (st : PlaqueFields × Bool) (line : String)
    (h1 : st.1.author ≠ "") (h2 : st.1.life_info ≠ "") (h3 : st.1.title ≠ "")
    (h4 : st.1.year ≠ "") (h5 : st.1.medium ≠ "") (h6 : st.1.source ≠ "")
    (h7 : st.1.description ≠ "") (hline : line ≠ "") (hblank : st.2 = true) :
    processLine st line = st := by
  apply processLine_dropped st line hline
  simp [ruleFires, hblank, h1, h2, h3, h4, h5, h6, h7]

/-- Witness for C5 on a concrete fully-filled state. -/
theorem C5_full_record_drop_witness :
    processLine fullRecordState "x" = fullRecordState :=
  C5_full_record_drop fullRecordState "x" (by decide) (by decide) (by decide)
    (by decide) (by decide) (by decide) (by decide) (by decide) (by decide)

/-- C10: a non-blank line on which no classification rule fires leaves the
entire state unchanged — in particular `last_line_blank` keeps its previous
value (it becomes `false` only when a rule fires and `true` only on a blank
line), so a line dropped right after a blank line leaves the flag `true` for
the next line. -/
theorem C10_dropped_line_keeps_flag (st : PlaqueFields × Bool) (line : String)
    (hline : line ≠ "") (hdrop : ruleFires st.1 st.2 = false) :
    processLine st line = st ∧
      (st.2 = true → (processLine st line).2 = true) := by
  have h := processLine_dropped st line hline hdrop
  exact ⟨h, fun hb => by rw [h]; exact hb⟩

/-- Companion fact for C10's parenthetical: on a non-blank line on which a
rule does fire, the flag is set to `false`. -/
theorem processLine_flag_false_of_fires (st : PlaqueFields × Bool)
    (line : String) (hline : line ≠ "") (hf : ruleFires st.1 st.2 = true) :
    (processLine st line).2 = false := by
  obtain ⟨info, b⟩ := st
  simp only [processLine, if_pos hline]
  repeat' split
  all_goals first
    | rfl
    | (exfalso; revert hf; simp_all [ruleFires, beq_iff_eq, bne_iff_ne])

/-- Witness for C10 on a concrete state whose flag is `true` and on which
no rule fires (`life_info` and `year` still empty). -/
theorem C10_dropped_line_keeps_flag_witness :
    processLine gapRecordState "x" = gapRecordState ∧
    (gapRecordState.2 = true → (processLine gapRecordState "x").2 = true) :=
  C10_dropped_line_keeps_flag gapRecordState "x" (by decide) (by decide)

/-- C1 counterexample: on `"A\n\nT\n\nM\n\nS\n\nD\n\nX"`, line index 10
(`"X"`, non-blank) satisfies none of the eight guards — it is dropped —
while `life_info` and `year` are still empty, refuting the claim that a
line is only ever dropped once all seven fields are non-empty. -/
theorem C1_counterexample :
    (strippedLines c1input).get? 10 = some "X" ∧ ("X" : String) ≠ "" ∧
    ruleFires (stateAfter c1input 10).1 (stateAfter c1input 10).2 = false ∧
    (stateAfter c1input 10).1.life_info = "" ∧
    (stateAfter c1input 10).1.year = "" := by
  decide

/-- C1 amended: when a non-blank line satisfies none of the eight guards
and is dropped, `author` is always non-empty; if the previous line was
blank then `title`, `medium`, `source`, `description` are also non-empty
(but `life_info` and `year` may still be empty); if the previous line was
not blank then `life_info` and `year` are non-empty and `description` is
empty. -/
theorem C1_amended_dropped_fields (st : PlaqueFields × Bool) (line : String)
    (hline : line ≠ "") (hdrop : ruleFires st.1 st.2 = false) :
    st.1.author ≠ "" ∧
    (st.2 = true → st.1.title ≠ "" ∧ st.1.medium ≠ "" ∧ st.1.source ≠ "" ∧
      st.1.description ≠ "") ∧
    (st.2 = false → st.1.life_info ≠ "" ∧ st.1.year ≠ "" ∧
      st.1.description = "") := by
  obtain ⟨info, b⟩ := st
  simp only [ruleFires, Bool.or_eq_false_iff, Bool.and_eq_false_iff,
    beq_eq_false_iff_ne, bne_eq_false_iff_eq, ne_eq] at hdrop
  obtain ⟨⟨⟨⟨⟨⟨⟨g1, g2⟩, g3⟩, g4⟩, g5⟩, g6⟩, g7⟩, g8⟩ := hdrop
  refine ⟨g1, fun hb => ?_, fun hb => ?_⟩
  · subst hb
    refine ⟨?_, ?_, ?_, ?_⟩
    · rcases g3 with h | h
      · exact h
      · exact absurd rfl h
    · rcases g5 with h | h
      · exact h
      · exact absurd rfl h
    · rcases g6 with h | h
      · exact h
      · exact absurd rfl h
    · rcases g7 with h | h
      · exact h
      · exact absurd rfl h
  · subst hb
    refine ⟨?_, ?_, ?_⟩
    · rcases g2 with h | h
      · exact h
      · exact absurd rfl h
    · rcases g4 with h | h
      · exact h
      · exact absurd rfl h
    · rcases g8 with h | h
      · exact h
      · exact absurd rfl h

/-- Witness for the amended C1 on a concrete dropped-line state. -/
theorem C1_amended_dropped_fields_witness :
    gapRecordState.1.author ≠ "" ∧
    (gapRecordState.2 = true → gapRecordState.1.title ≠ "" ∧
      gapRecordState.1.medium ≠ "" ∧ gapRecordState.1.source ≠ "" ∧
      gapRecordState.1.description ≠ "") ∧
    (gapRecordState.2 = false → gapRecordState.1.life_info ≠ "" ∧
      gapRecordState.1.year ≠ "" ∧ gapRecordState.1.description = "") :=
  C1_amended_dropped_fields gapRecordState "x" (by decide) (by decide)

/-- C7 counterexample: on `"A\n\nT\n\nM\n\nS\n\nD\nX"`, after line 9 the
description is `"D"` and the previous line was not blank, yet the next
non-blank line `"X"` is captured by rule 2 (`life_info` still empty)
instead of being appended: the description stays `"D"`, not
`"D" ++ "\n" ++ "X"`. -/
theorem C7_counterexample :
    (stateAfter c7input 9).1.description = "D" ∧
    (stateAfter c7input 9).2 = false ∧
    (strippedLines c7input).get? 9 = some "X" ∧
    (processLine (stateAfter c7input 9) "X").1.life_info = "X" ∧
    (processLine (stateAfter c7input 9) "X").1.description = "D" ∧
    (processLine (stateAfter c7input 9) "X").1.description ≠
      (stateAfter c7input 9).1.description ++ "\n" ++ "X" := by
  decide

/-- C7 amended: when `description` is non-empty, the previous line was not
blank, and additionally `author`, `life_info` and `year` are already
non-empty (otherwise rules 1, 2 or 4 capture the line first), processing a
non-blank line appends it to `description` with exactly one newline between
the old content and the new line. -/
theorem C7_amended_description_append (st : PlaqueFields × Bool) (line : String)
    (hline : line ≠ "") (hblank : st.2 = false) (hdesc : st.1.description ≠ "")
    (hauthor : st.1.author ≠ "") (hlife : st.1.life_info ≠ "")
    (hyear : st.1.year ≠ "") :
    (processLine st line).1.description = st.1.description ++ "\n" ++ line := by
  obtain ⟨info, b⟩ := st
  subst hblank
  simp only [processLine, if_pos hline]
  rw [if_neg hauthor]
  rw [if_neg (by rintro ⟨h, -⟩; exact hlife h)]
  rw [if_neg (by rintro ⟨-, h⟩; cases h)]
  rw [if_neg (by rintro ⟨h, -⟩; exact hyear h)]
  rw [if_neg (by rintro ⟨-, h⟩; cases h)]
  rw [if_neg (by rintro ⟨-, h⟩; cases h)]
  rw [if_neg (by rintro ⟨-, h⟩; cases h)]
  rw [if_pos ⟨hdesc, by trivial⟩]

/-- Witness for the amended C7 on a concrete continuation state. -/
theorem C7_amended_description_append_witness :
    (processLine contRecordState "x").1.description =
      contRecordState.1.description ++ "\n" ++ "x" :=
  C7_amended_description_append contRecordState "x" (by decide) (by decide)
    (by decide) (by decide) (by decide) (by decide)

/-- Symbolic run of the loop on the eleven-line layout `author / life /
blank / title / year / blank / medium / blank / source / blank /
description`. -/
theorem fold_layout (raw a l t y m s d : String)
    (ha : a ≠ "") (hl : l ≠ "") (ht : t ≠ "") (hy : y ≠ "") (hm : m ≠ "")
    (hs : s ≠ "") (hd : d ≠ "") :
    ([a, l, "", t, y, "", m, "", s, "", d].foldl processLine
      (initFields raw, true)).1 =
      { author := a, life_info := l, title := t, year := y, medium := m,
        source := s, description := d, parse_success := false,
        raw_text := raw } := by
  simp [List.foldl, processLine, initFields, ha, hl, ht, hy, hm, hs, hd]

/-- C6: for an input laid out as author line, life-dates line, blank, title
line, a year line immediately after the title (no intervening blank), blank,
medium line, blank, source line, blank, description line — all lines
non-blank after stripping — `parse_text` assigns the line after the title to
`year`, and `parse_success` is `true` since all seven fields end up
non-empty. -/
theorem C6_year_layout (raw_text a l t y m s d : String)
    (hsplit : strippedLines raw_text = [a, l, "", t, y, "", m, "", s, "", d])
    (ha : a ≠ "") (hl : l ≠ "") (ht : t ≠ "") (hy : y ≠ "") (hm : m ≠ "")
    (hs : s ≠ "") (hd : d ≠ "") :
    (parse_text raw_text false).year = y ∧
    (parse_text raw_text false).parse_success = true := by
  have hmem : a ∈ strippedLines raw_text := by
    rw [hsplit]
    exact List.mem_cons_self _ _
  have hne : pyStrip raw_text ≠ "" :=
    fun h => ha (strippedLines_all_empty h a hmem)
  have hraw : raw_text ≠ "" := ne_empty_of_pyStrip_ne_empty hne
  simp only [parse_text]
  rw [if_neg hne, hsplit,
    fold_layout raw_text a l t y m s d ha hl ht hy hm hs hd]
  have hall : allValuesNonEmpty
      { author := a, life_info := l, title := t, year := y, medium := m,
        source := s, description := d, parse_success := false,
        raw_text := raw_text } = true := by
    simp [allValuesNonEmpty, ha, hl, ht, hy, hm, hs, hd, hraw]
  rw [if_pos hall]
  exact ⟨rfl, rfl⟩

/-- Witness for C6 on the concrete eleven-line plaque layout. -/
theorem C6_year_layout_witness :
    (parse_text c6input false).year = "1923" ∧
    (parse_text c6input false).parse_success = true :=
  C6_year_layout c6input "Jane Doe" "1900-1980" "Sunset" "1923"
    "Oil on canvas" "Gift of X" "A painting of a sunset over water."
    (by decide) (by decide) (by decide) (by decide) (by decide) (by decide)
    (by decide) (by decide)

/-- C9: in the driver, whenever the parsed record has `parse_success` not
equal to `true`, the run aborts with an error carrying the partial record's
contents and no input is handed to translation; when `parse_success` is
`true`, no such error is raised at that point. -/
theorem C9_driver_abort (extracted_text : String) (debug : Bool) :
    ((parse_text extracted_text debug).parse_success = false →
      (mainParseStage extracted_text debug).abortError =
        some (parse_text extracted_text debug) ∧
      (mainParseStage extracted_text debug).translationInputs = []) ∧
    ((parse_text extracted_text debug).parse_success = true →
      (mainParseStage extracted_text debug).abortError = none) := by
  constructor
  · intro h
    simp [mainParseStage, h]
  · intro h
    simp [mainParseStage, h]

/-- Witness for C9: on empty extracted text the parse fails, the driver
records the abort and hands nothing to translation. -/
theorem C9_driver_abort_witness :
    (mainParseStage "" false).abortError = some (parse_text "" false) ∧
    (mainParseStage "" false).translationInputs = [] :=
  (C9_driver_abort "" false).1 (by decide)

end PlaqueParser


